import Mathlib

/-!
Verification of the CarDiagnosis request/response adapter layer
(src/src/lib/gemini.ts and src/src/App.tsx).

The adapter's pure logic is embedded shallowly:
* a model of the platform `JSON.parse` (objects, arrays, strings, numbers,
  booleans, null, whitespace; numeric tokens are kept verbatim since the
  code never uses their numeric value),
* `extractAndParseJSON` (gemini.ts lines 64-80),
* `convertUSDtoINR` (gemini.ts lines 83-98) with the `en-IN` digit grouping
  of `Number.prototype.toLocaleString`,
* `handleApiError` (gemini.ts lines 24-41),
* the response validation/normalization shared by `analyzeOBDCode`,
  `analyzeImage` and `analyzeVideo` (gemini.ts lines 129-144, 179-194,
  246-261),
* a transition system for the App component's loading flag (App.tsx),
* an event-trace model for the `analyzeVideo` request pipeline
  (gemini.ts lines 200-243).
-/

/-- The `\x7b` character, written by code point to keep braces out of literals. -/
def lbrace : Char := Char.ofNat 123

/-- The `\x7d` character. -/
def rbrace : Char := Char.ofNat 125

/-- JSON values as produced by `JSON.parse`.  Numeric literals are stored as
their source token: the adapter only ever tests them for truthiness and
feeds them to string operations, never to arithmetic. -/
inductive Json where
  | null : Json
  | bool : Bool → Json
  | num : String → Json
  | str : String → Json
  | arr : List Json → Json
  | obj : List (String × Json) → Json

/-- JSON insignificant whitespace. -/
def jsonWs (c : Char) : Bool :=
  c == ' ' || c == '\t' || c == '\n' || Char.ofNat 13 == c

/-- Drop leading JSON whitespace. -/
def skipWs (cs : List Char) : List Char :=
  cs.dropWhile jsonWs

/-- Hexadecimal digit value, for `\u` escapes. -/
def hexVal (c : Char) : Option Nat :=
  if '0' ≤ c ∧ c ≤ '9' then some (c.toNat - 48)
  else if 'a' ≤ c ∧ c ≤ 'f' then some (c.toNat - 87)
  else if 'A' ≤ c ∧ c ≤ 'F' then some (c.toNat - 55)
  else none

/-- Single-character JSON string escapes. -/
def escChar (e : Char) : Option Char :=
  if e = '"' then some '"'
  else if e = '\\' then some '\\'
  else if e = '/' then some '/'
  else if e = 'b' then some (Char.ofNat 8)
  else if e = 'f' then some (Char.ofNat 12)
  else if e = 'n' then some '\n'
  else if e = 'r' then some (Char.ofNat 13)
  else if e = 't' then some '\t'
  else none

/-- Parse the body of a JSON string literal (opening quote already
consumed); returns the decoded characters and the input after the closing
quote. -/
def parseStringChars : List Char → Option (List Char × List Char)
  | [] => none
  | c :: rest =>
    if c = '"' then some ([], rest)
    else if c = '\\' then
      match rest with
      | [] => none
      | e :: rest2 =>
        if e = 'u' then
          match rest2 with
          | h1 :: h2 :: h3 :: h4 :: rest3 =>
            match hexVal h1, hexVal h2, hexVal h3, hexVal h4 with
            | some a, some b, some c2, some d =>
              match parseStringChars rest3 with
              | some (chars, rem) =>
                some (Char.ofNat (((a * 16 + b) * 16 + c2) * 16 + d) :: chars, rem)
              | none => none
            | _, _, _, _ => none
          | _ => none
        else
          match escChar e with
          | some ch =>
            match parseStringChars rest2 with
            | some (chars, rem) => some (ch :: chars, rem)
            | none => none
          | none => none
    else if c.toNat < 32 then none
    else
      match parseStringChars rest with
      | some (chars, rem) => some (c :: chars, rem)
      | none => none

/-- Parse an optional exponent part and close off a numeric token. -/
def finishNumTok (acc : List Char) (cs : List Char) : Option (String × List Char) :=
  match cs with
  | c :: r =>
    if c = 'e' ∨ c = 'E' then
      let sgnSplit : List Char × List Char :=
        match r with
        | s :: r3 => if s = '+' ∨ s = '-' then ([s], r3) else ([], r)
        | [] => ([], r)
      let ds := sgnSplit.2.takeWhile Char.isDigit
      if ds.isEmpty then none
      else some (String.mk (acc ++ c :: (sgnSplit.1 ++ ds)), sgnSplit.2.dropWhile Char.isDigit)
    else some (String.mk acc, cs)
  | [] => some (String.mk acc, [])

/-- Parse a JSON numeric token (`-? int frac? exp?`, no leading zeros). -/
def parseNumberTok (cs : List Char) : Option (String × List Char) :=
  let split : List Char × List Char :=
    match cs with
    | '-' :: r => (['-'], r)
    | _ => ([], cs)
  let intPart := split.2.takeWhile Char.isDigit
  let rest1 := split.2.dropWhile Char.isDigit
  if intPart.isEmpty then none
  else if intPart.length > 1 ∧ intPart.head? = some '0' then none
  else
    match rest1 with
    | '.' :: r =>
      let ds := r.takeWhile Char.isDigit
      if ds.isEmpty then none
      else finishNumTok (split.1 ++ intPart ++ '.' :: ds) (r.dropWhile Char.isDigit)
    | _ => finishNumTok (split.1 ++ intPart) rest1

/-- Parsing mode: a whole value, the members of an object after its
opening brace, or the items of an array after its opening bracket. -/
inductive PK where
  | val : PK
  | objItems : PK
  | arrItems : PK

/-- Fuel-indexed recursive-descent JSON parser.  In mode `objItems` the
result is `Json.obj fields`, in mode `arrItems` it is `Json.arr items`. -/
def parseAny : Nat → PK → List Char → Option (Json × List Char)
  | 0, _, _ => none
  | Nat.succ fuel, PK.val, cs =>
    match skipWs cs with
    | [] => none
    | c :: rest =>
      if c = 'n' then
        match rest with
        | 'u' :: 'l' :: 'l' :: rest2 => some (Json.null, rest2)
        | _ => none
      else if c = 't' then
        match rest with
        | 'r' :: 'u' :: 'e' :: rest2 => some (Json.bool true, rest2)
        | _ => none
      else if c = 'f' then
        match rest with
        | 'a' :: 'l' :: 's' :: 'e' :: rest2 => some (Json.bool false, rest2)
        | _ => none
      else if c = '"' then
        match parseStringChars rest with
        | some (chars, rest2) => some (Json.str (String.mk chars), rest2)
        | none => none
      else if c = lbrace then
        match skipWs rest with
        | d :: rest2 =>
          if d = rbrace then some (Json.obj [], rest2)
          else parseAny fuel PK.objItems (skipWs rest)
        | [] => none
      else if c = '[' then
        match skipWs rest with
        | d :: rest2 =>
          if d = ']' then some (Json.arr [], rest2)
          else parseAny fuel PK.arrItems (skipWs rest)
        | [] => none
      else
        match parseNumberTok (c :: rest) with
        | some (tok, rest2) => some (Json.num tok, rest2)
        | none => none
  | Nat.succ fuel, PK.objItems, cs =>
    match skipWs cs with
    | '"' :: rest =>
      match parseStringChars rest with
      | some (keyChars, rest1) =>
        match skipWs rest1 with
        | ':' :: rest2 =>
          match parseAny fuel PK.val rest2 with
          | some (v, rest3) =>
            match skipWs rest3 with
            | ',' :: rest4 =>
              match parseAny fuel PK.objItems rest4 with
              | some (Json.obj fields, rest5) =>
                some (Json.obj ((String.mk keyChars, v) :: fields), rest5)
              | _ => none
            | d :: rest4 =>
              if d = rbrace then some (Json.obj [(String.mk keyChars, v)], rest4) else none
            | [] => none
          | none => none
        | _ => none
      | none => none
    | _ => none
  | Nat.succ fuel, PK.arrItems, cs =>
    match parseAny fuel PK.val cs with
    | some (v, rest) =>
      match skipWs rest with
      | ',' :: rest2 =>
        match parseAny fuel PK.arrItems rest2 with
        | some (Json.arr items, rest3) => some (Json.arr (v :: items), rest3)
        | _ => none
      | ']' :: rest2 => some (Json.arr [v], rest2)
      | _ => none
    | none => none

/-- Model of the platform `JSON.parse`: parse one value, allow surrounding
whitespace, require the whole input to be consumed. -/
def jsonParse (s : String) : Option Json :=
  match parseAny (2 * s.toList.length + 2) PK.val s.toList with
  | some (v, rest) => if (skipWs rest).isEmpty then some v else none
  | none => none

/-- Prefix of the input up to and including its last `\x7d`, or `none` if
there is no `\x7d`. -/
def upToLastClose : List Char → Option (List Char)
  | [] => none
  | c :: rest =>
    match upToLastClose rest with
    | some tail => some (c :: tail)
    | none => if c = rbrace then some [c] else none

/-- The leftmost-greedy match of the regular expression
`\x7b[\s\S]*\x7d` (gemini.ts line 70): it starts at the first `\x7b`
that is followed by some `\x7d`, and extends through the last `\x7d` of
the input. -/
def braceFind : List Char → Option (List Char)
  | [] => none
  | c :: rest =>
    if c = lbrace then
      match upToLastClose rest with
      | some tail => some (c :: tail)
      | none => braceFind rest
    else braceFind rest

/-- `text.match(/\x7b[\s\S]*\x7d/)` as a string-level function. -/
def braceMatch (s : String) : Option String :=
  (braceFind s.toList).map String.mk

/-- gemini.ts lines 64-80: try `JSON.parse` on the whole text; on failure
extract the brace-regex match and retry; otherwise throw. -/
def extractAndParseJSON (text : String) : Except String Json :=
  match jsonParse text with
  | some v => Except.ok v
  | none =>
    match braceMatch text with
    | some m =>
      match jsonParse m with
      | some v => Except.ok v
      | none => Except.error "Failed to parse response as JSON"
    | none => Except.error "No valid JSON found in response"

/-- Maximal runs of decimal digits, as matched by `/\d+/g`
(gemini.ts line 85).  Fuel-indexed; each step consumes at least one
character, so `length + 1` units of fuel suffice. -/
def digitRunsAux : Nat → List Char → List String
  | 0, _ => []
  | _, [] => []
  | Nat.succ fuel, c :: rest =>
    if c.isDigit then
      String.mk (c :: rest.takeWhile Char.isDigit) :: digitRunsAux fuel (rest.dropWhile Char.isDigit)
    else digitRunsAux fuel rest

/-- `usdAmount.match(/\d+/g)`, with `[]` standing for the `null` result. -/
def digitRuns (s : String) : List String :=
  digitRunsAux (s.toList.length + 1) s.toList

/-- The exact mathematical integer denoted by a run of decimal digits.
`parseInt` itself returns an IEEE-754 double, i.e. this value rounded by
`roundNatToDouble`. -/
def digitsToNat (s : String) : Nat :=
  s.toList.foldl (fun n c => n * 10 + (c.toNat - 48)) 0

/-- Number of bits of `n` (0 for 0), with explicit fuel so that it
evaluates by kernel reduction; the recursion depth is the bit count, so
`n + 1` units of fuel always suffice. -/
def bitLenAux : Nat → Nat → Nat
  | 0, _ => 0
  | Nat.succ fuel, n => if n = 0 then 0 else bitLenAux fuel (n / 2) + 1

/-- Number of bits of `n`. -/
def bitLen (n : Nat) : Nat :=
  bitLenAux (n + 1) n

/-- Round a nonnegative integer to the nearest IEEE-754 double
(round-to-nearest, ties-to-even, 53-bit significand); `none` is positive
Infinity.  Every double produced from an integer is itself an integer, so
the result can be carried as an exact `Nat`. -/
def roundNatToDouble (n : Nat) : Option Nat :=
  if n < 2 ^ 53 then some n
  else
    let k := bitLen n - 53
    let q := n / 2 ^ k
    let r := n % 2 ^ k
    let half := 2 ^ (k - 1)
    let m := if half < r ∨ (r = half ∧ q % 2 = 1) then q + 1 else q
    let v := m * 2 ^ k
    if v < 2 ^ 1024 then some v else none

/-- `Math.round(parseInt(run) * 83)` as JavaScript computes it:
`parseInt` rounds the exact integer to a double, the multiplication by 83
rounds the exact product to a double, and `Math.round` is the identity on
these integral values (`none` is Infinity).  Both roundings are exact
whenever the product is below `2 ^ 53`. -/
def inrValue (run : String) : Option Nat :=
  match roundNatToDouble (digitsToNat run) with
  | none => none
  | some d => roundNatToDouble (d * 83)

/-- Group a reversed digit list in pairs, the `en-IN` style used above the
last three digits. -/
def groupTwosRev : List Char → List Char
  | [] => []
  | [a] => [a]
  | [a, b] => [a, b]
  | a :: b :: c :: rest => a :: b :: ',' :: groupTwosRev (c :: rest)

/-- `n.toLocaleString('en-IN')`: last three digits form one group, the
remaining digits are grouped in pairs, groups separated by commas. -/
def enIN (n : Nat) : String :=
  let rev := (Nat.repr n).toList.reverse
  if rev.length ≤ 3 then Nat.repr n
  else String.mk ((rev.take 3 ++ ',' :: groupTwosRev (rev.drop 3)).reverse)

/-- Render a rounded rupee amount: a finite integral double in `en-IN`
grouping, Infinity as the infinity sign `Intl.NumberFormat` emits. -/
def enINOpt : Option Nat → String
  | some n => enIN n
  | none => "∞"

/-- gemini.ts lines 83-98: extract the digit runs of the USD string; with
no run report `Price unavailable`; with exactly two runs produce a
converted range; otherwise convert the first run alone.  Each value is
`Math.round(parseInt(run) * 83)` in IEEE-754 double arithmetic
(`inrValue`), which agrees with the exact product only while it fits in
53 bits. -/
def convertUSDtoINR (usdAmount : String) : String :=
  match digitRuns usdAmount with
  | [] => "Price unavailable"
  | [a, b] => "₹" ++ enINOpt (inrValue a) ++ "-₹" ++ enINOpt (inrValue b)
  | a :: _ => "₹" ++ enINOpt (inrValue a)

/-- `needle` is a prefix of `hay`. -/
def isPrefixChars : List Char → List Char → Bool
  | [], _ => true
  | _ :: _, [] => false
  | n :: ns, h :: hs => n == h && isPrefixChars ns hs

/-- `needle` occurs contiguously in `hay`. -/
def isInfixChars (needle : List Char) : List Char → Bool
  | [] => isPrefixChars needle []
  | h :: rest => isPrefixChars needle (h :: rest) || isInfixChars needle rest

/-- Model of `String.prototype.includes`. -/
def containsSubstr (s pat : String) : Bool :=
  isInfixChars pat.toList s.toList

/-- A JSON numeric token denotes zero exactly when every digit of its
mantissa (the part before any exponent marker) is `0`. -/
def numTokenIsZero (tok : String) : Bool :=
  (tok.toList.takeWhile (fun c => !(c == 'e') && !(c == 'E'))).all
    (fun c => !c.isDigit || c == '0')

/-- JavaScript falsiness of a parsed JSON value: `null`, `false`, zero and
the empty string are falsy; every array and object is truthy. -/
def jsFalsy : Json → Bool
  | Json.null => true
  | Json.bool b => !b
  | Json.num t => numTokenIsZero t
  | Json.str s => s == ""
  | Json.arr _ => false
  | Json.obj _ => false

/-- Property lookup on the field list of a parsed JSON object.  For
duplicate keys `JSON.parse` keeps the last occurrence, hence the reverse. -/
def jsLookup (fs : List (String × Json)) (k : String) : Option Json :=
  (fs.reverse.find? (fun p => p.1 == k)).map Prod.snd

/-- `!!parsedResponse[k]`: the field is present and truthy. -/
def fieldTruthy (fs : List (String × Json)) (k : String) : Bool :=
  match jsLookup fs k with
  | none => false
  | some v => !jsFalsy v

/-- ASCII lower-casing of a character, as `String.prototype.toLowerCase`
acts on the ASCII range (the only range the adapter's data exercises). -/
def jsLowerChar (c : Char) : Char :=
  if 'A' ≤ c ∧ c ≤ 'Z' then Char.ofNat (c.toNat + 32) else c

/-- Model of `String.prototype.toLowerCase`. -/
def jsToLower (s : String) : String :=
  String.mk (s.toList.map jsLowerChar)

/-- `v.toLowerCase()`: succeeds only on strings; on any other value the
method is `undefined` and the call raises a `TypeError`. -/
def jsToLowerCase : Json → Except String String
  | Json.str s => Except.ok (jsToLower s)
  | _ => Except.error "parsedResponse.severity.toLowerCase is not a function"

/-- `v.match(...)` as used by `convertUSDtoINR`: succeeds only on strings. -/
def asStringForMatch : Json → Except String String
  | Json.str s => Except.ok s
  | _ => Except.error "usdAmount.match is not a function"

/-- String interpolation `${v}` of a looked-up property; `none` is the
`undefined` case.  Arrays are approximated by the empty join (the claims
under verification never reach this case). -/
def jsTemplateShow : Option Json → String
  | none => "undefined"
  | some Json.null => "null"
  | some (Json.bool true) => "true"
  | some (Json.bool false) => "false"
  | some (Json.num t) => t
  | some (Json.str s) => s
  | some (Json.arr _) => ""
  | some (Json.obj _) => "[object Object]"

/-- The shape of a caught JavaScript error as inspected by
`handleApiError`: an optional `message` and an optional
`response.status`. -/
structure JsError where
  message : Option String
  responseStatus : Option Nat

/-- `error.message?.includes(pat)`. -/
def msgIncludes (e : JsError) (pat : String) : Bool :=
  match e.message with
  | some m => containsSubstr m pat
  | none => false

/-- The user-facing message for an invalid credential. -/
def invalidKeyMsg : String :=
  "Invalid API key. Please check your VITE_GEMINI_API_KEY in .env file and make sure it is correct."

/-- The user-facing message for quota exhaustion. -/
def quotaMsg : String :=
  "API quota exceeded. Please check your Google AI Studio quota limits."

/-- The user-facing message for HTTP 429. -/
def rateMsg : String :=
  "Too many requests. Please try again in a few moments."

/-- The generic fallback message. -/
def genericMsg : String :=
  "An error occurred while communicating with the Gemini API"

/-- gemini.ts lines 24-41: classify a caught error into a user-facing
message.  `error.message || fallback` treats an empty message as absent. -/
def handleApiError (e : JsError) : String :=
  if msgIncludes e "API key not valid" then invalidKeyMsg
  else if msgIncludes e "quota exceeded" then quotaMsg
  else if e.responseStatus = some 429 then rateMsg
  else
    match e.message with
    | some m => if m = "" then genericMsg else m
    | none => genericMsg

/-- An `Error` thrown inside the `try` block, as it reaches the `catch`
handler: it carries its message and no HTTP response. -/
def internalError (m : String) : JsError :=
  { message := some m, responseStatus := none }

/-- The typed result produced by the three analyzers (gemini.ts lines
3-12).  `usd` and `inr` are the two components of `estimatedCost`. -/
structure DiagnosisResult where
  problem : Json
  solution : Json
  severity : String
  usd : String
  inr : String
  additionalNotes : Option Json

/-- The validation error of gemini.ts lines 131-133. -/
def invalidFieldsMsg : String :=
  "Invalid response format: missing required fields"

/-- gemini.ts lines 129-144 (shared verbatim by lines 179-194 and
246-261): parse the response text, require the four mandatory fields to be
truthy, lower-case the severity, and pair the USD estimate with its INR
conversion.  Accessing a property of `null` raises a `TypeError`; on any
other non-object every property is `undefined`, hence falsy.  The
`mkNotes` parameter is the one line on which `analyzeVideo` differs. -/
def processResponse (mkNotes : List (String × Json) → Option Json) (text : String) :
    Except String DiagnosisResult :=
  match extractAndParseJSON text with
  | Except.error e => Except.error e
  | Except.ok Json.null =>
    Except.error "Cannot read properties of null (reading 'problem')"
  | Except.ok (Json.obj fs) =>
    if !(fieldTruthy fs "problem") || !(fieldTruthy fs "solution")
        || !(fieldTruthy fs "severity") || !(fieldTruthy fs "estimatedCost") then
      Except.error invalidFieldsMsg
    else
      match jsLookup fs "problem", jsLookup fs "solution",
            jsLookup fs "severity", jsLookup fs "estimatedCost" with
      | some p, some sol, some sevv, some costv =>
        match jsToLowerCase sevv with
        | Except.error e => Except.error e
        | Except.ok sev =>
          match asStringForMatch costv with
          | Except.error e => Except.error e
          | Except.ok cost =>
            Except.ok { problem := p, solution := sol, severity := sev, usd := cost,
                        inr := convertUSDtoINR cost, additionalNotes := mkNotes fs }
      | _, _, _, _ => Except.error invalidFieldsMsg
  | Except.ok _ => Except.error invalidFieldsMsg

/-- `additionalNotes` of `analyzeOBDCode`: the field as parsed. -/
def obdNotes (fs : List (String × Json)) : Option Json :=
  jsLookup fs "additionalNotes"

/-- `additionalNotes` of `analyzeImage`: the field as parsed. -/
def imageNotes (fs : List (String × Json)) : Option Json :=
  jsLookup fs "additionalNotes"

/-- `additionalNotes` of `analyzeVideo` (gemini.ts line 260): the template
string over `audioAnalysis` and `additionalNotes || ''`. -/
def videoNotes (fs : List (String × Json)) : Option Json :=
  some (Json.str (jsTemplateShow (jsLookup fs "audioAnalysis") ++ "\n\n" ++
    (match jsLookup fs "additionalNotes" with
     | some v => if jsFalsy v then "" else jsTemplateShow (some v)
     | none => "")))

/-- The common `try`/`catch` shape of the three analyzers: the argument is
the outcome of the single API round trip (a raw response text, or the
transport error the SDK threw); every error raised inside the `try` block
reaches `handleApiError`, which rethrows a single message. -/
def analyzeWith (mkNotes : List (String × Json) → Option Json)
    (api : Except JsError String) : Except String DiagnosisResult :=
  match api with
  | Except.error e => Except.error (handleApiError e)
  | Except.ok text =>
    match processResponse mkNotes text with
    | Except.error m => Except.error (handleApiError (internalError m))
    | Except.ok r => Except.ok r

/-- gemini.ts lines 100-148, response side. -/
def analyzeOBDCode : Except JsError String → Except String DiagnosisResult :=
  analyzeWith obdNotes

/-- gemini.ts lines 150-198, response side. -/
def analyzeImage : Except JsError String → Except String DiagnosisResult :=
  analyzeWith imageNotes

/-- gemini.ts lines 200-265, response side. -/
def analyzeVideo : Except JsError String → Except String DiagnosisResult :=
  analyzeWith videoNotes

/-- The App component state relevant to request gating (App.tsx lines
8-11, abstracted): the `isLoading` flag and the number of analyze calls
currently outstanding. -/
structure AppState where
  isLoading : Bool
  inFlight : Nat

/-- App.tsx line 224: the OBD submit button carries
`disabled=isLoading`. -/
def obdSubmitDisabled (s : AppState) : Bool :=
  s.isLoading

/-- App.tsx line 278: the file-upload input carries
`disabled=isLoading`. -/
def fileUploadDisabled (s : AppState) : Bool :=
  s.isLoading

/-- User-interface events that touch the loading flag.  A control that is
rendered disabled fires no events, so the two start transitions are
guarded by the corresponding `disabled` attribute; `settle` is the
`finally` block of either handler (App.tsx lines 50-53 and 71-73), which
runs when the awaited analyze call resolves or rejects.  The
input-validation early returns of both handlers leave the flag and the
call count unchanged and are omitted. -/
inductive UiStep : AppState → AppState → Prop
  | obdSubmitStart (s : AppState) (h : obdSubmitDisabled s = false) :
      UiStep s { isLoading := true, inFlight := s.inFlight + 1 }
  | fileUploadStart (s : AppState) (h : fileUploadDisabled s = false) :
      UiStep s { isLoading := true, inFlight := s.inFlight + 1 }
  | settle (s : AppState) (h : 0 < s.inFlight) :
      UiStep s { isLoading := false, inFlight := s.inFlight - 1 }

/-- App.tsx lines 8-11: the component mounts with `isLoading = false` and
nothing outstanding. -/
def initialAppState : AppState :=
  { isLoading := false, inFlight := 0 }

/-- States the App component can reach. -/
def ReachableApp (s : AppState) : Prop :=
  Relation.ReflTransGen UiStep initialAppState s

/-- A file as far as the video pipeline inspects it. -/
structure FileM where
  name : String
  mimeType : String
  content : String

/-- An inline-data part of a `generateContent` request (gemini.ts lines
44-61): base64 payload plus MIME type. -/
structure MediaPart where
  data : String
  mimeType : String

/-- Base64 encoding, abstracted: the claims depend only on which file is
encoded, never on the encoding itself. -/
def base64Encode (s : String) : String :=
  "base64:" ++ s

/-- The observable effects of `analyzeVideo`'s request side, in the order
the `await`s complete them. -/
inductive VEvent where
  | frameExtracted (videoName : String) : VEvent
  | audioExtracted (videoName : String) : VEvent
  | apiCall (prompt : String) (media : MediaPart) : VEvent

/-- A sequential trace of effects: the state is the list of events emitted
so far.  `Promise.all` of the two extraction promises is modelled by
running both to completion, in sequence, before anything that follows the
`await` — which is exactly the ordering fact claimed. -/
def TraceM (α : Type) : Type :=
  List VEvent → α × List VEvent

instance : Monad TraceM where
  pure a := fun tr => (a, tr)
  bind x f := fun tr =>
    let p := x tr
    f p.1 p.2

/-- Record one effect. -/
def emit (e : VEvent) : TraceM Unit :=
  fun tr => ((), tr ++ [e])

/-- The events of a run started from the empty trace. -/
def runEvents {α : Type} (x : TraceM α) : List VEvent :=
  (x []).2

/-- The still frame produced by drawing the video's first frame on a
canvas and exporting it as JPEG; the bitmap itself is abstract. -/
def frameFileOf (v : FileM) : FileM :=
  { name := "frame.jpg", mimeType := "image/jpeg", content := "jpeg-first-frame:" ++ v.content }

/-- gemini.ts lines 268-299: load the video, draw its first frame, resolve
with the file `frame.jpg` of type `image/jpeg`. -/
def extractVideoFrame (v : FileM) : TraceM FileM := do
  emit (VEvent.frameExtracted v.name)
  pure (frameFileOf v)

/-- The amplitude-bucket transcript of gemini.ts lines 302-367, abstract:
only its completion before the API call matters to the claims. -/
def audioSummaryOf (v : FileM) : String :=
  "frequency-patterns:" ++ v.name

/-- gemini.ts lines 302-367: play the video through an analyser node and
accumulate the per-frame frequency-bucket description. -/
def extractAudioTranscript (v : FileM) : TraceM String := do
  emit (VEvent.audioExtracted v.name)
  pure (audioSummaryOf v)

/-- gemini.ts lines 44-61: inline base64 data plus the file's MIME type. -/
def fileToGenerativePart (f : FileM) : MediaPart :=
  { data := base64Encode f.content, mimeType := f.mimeType }

/-- The video prompt (gemini.ts lines 213-238), abridged to the part that
depends on the computation: it embeds the audio transcript. -/
def videoPrompt (transcript : String) : String :=
  "Analyze this video frame and audio transcript. Audio Transcript: " ++ transcript

/-- `model.generateContent([prompt, imagePart])` followed by reading the
response text; the text itself is supplied from outside. -/
def generateContent (prompt : String) (media : MediaPart) (resp : String) : TraceM String := do
  emit (VEvent.apiCall prompt media)
  pure resp

/-- gemini.ts lines 200-243, request side: await both extractions, build
the inline part from the extracted frame, then issue the API call. -/
def analyzeVideoRequest (v : FileM) (resp : String) : TraceM String := do
  let frame ← extractVideoFrame v
  let transcript ← extractAudioTranscript v
  let part := fileToGenerativePart frame
  generateContent (videoPrompt transcript) part resp

/-- C1, refuting instance for the recovery property as claimed: the text
is malformed and contains a brace-delimited substring that is valid JSON,
yet `extractAndParseJSON` fails with the parse error — the regex is
greedy, so it grabs from the first opening brace to the LAST closing
brace of the text, and that span is not valid JSON here. -/
theorem C1_counterexample :
    extractAndParseJSON "a\x7b\"a\":1\x7db\x7bc\x7dd" =
      Except.error "Failed to parse response as JSON" ∧
    containsSubstr "a\x7b\"a\":1\x7db\x7bc\x7dd" "\x7b\"a\":1\x7d" = true ∧
    jsonParse "\x7b\"a\":1\x7d" = some (Json.obj [("a", Json.num "1")]) ∧
    jsonParse "a\x7b\"a\":1\x7db\x7bc\x7dd" = none :=
  ⟨rfl, rfl, rfl, rfl⟩

/-- C2: the severity cast is unchecked.  An API response whose severity is
`CRITICAL` passes validation and is returned with severity `critical`,
which is none of the three recognized levels — the declared enum is
violated at runtime.  Lower-casing itself is case-insensitive as claimed:
`HIGH` comes back as `high`. -/
theorem C2_unchecked_severity_cast :
    (analyzeOBDCode (Except.ok "\x7b\"problem\":\"p\",\"solution\":\"s\",\"severity\":\"CRITICAL\",\"estimatedCost\":\"$100\"\x7d")).map
        DiagnosisResult.severity = Except.ok "critical" ∧
    (analyzeOBDCode (Except.ok "\x7b\"problem\":\"p\",\"solution\":\"s\",\"severity\":\"HIGH\",\"estimatedCost\":\"$100\"\x7d")).map
        DiagnosisResult.severity = Except.ok "high" ∧
    ¬("critical" = "low" ∨ "critical" = "medium" ∨ "critical" = "high") :=
  ⟨rfl, rfl, by decide⟩

/-- C4: `handleApiError` is a fixed cascade of keyed checks — invalid-key
substring, then quota substring, then status 429, then the error's own
non-empty message, then the generic fallback. -/
theorem C4_error_classifier (e : JsError) :
    (msgIncludes e "API key not valid" = true → handleApiError e = invalidKeyMsg) ∧
    (msgIncludes e "API key not valid" = false → msgIncludes e "quota exceeded" = true →
      handleApiError e = quotaMsg) ∧
    (msgIncludes e "API key not valid" = false → msgIncludes e "quota exceeded" = false →
      e.responseStatus = some 429 → handleApiError e = rateMsg) ∧
    (msgIncludes e "API key not valid" = false → msgIncludes e "quota exceeded" = false →
      e.responseStatus ≠ some 429 →
      (∀ m, e.message = some m → m ≠ "" → handleApiError e = m) ∧
      ((e.message = none ∨ e.message = some "") → handleApiError e = genericMsg)) := by
  refine ⟨fun h1 => by simp [handleApiError, h1],
          fun h1 h2 => by simp [handleApiError, h1, h2],
          fun h1 h2 h3 => by simp [handleApiError, h1, h2, h3],
          fun h1 h2 h3 => ⟨fun m hm hne => by simp [handleApiError, h1, h2, h3, hm, hne],
                           fun hc => ?_⟩⟩
  rcases hc with h | h <;> simp [handleApiError, h1, h2, h3, h]

/-- Witness for `C4_error_classifier` at a concrete quota error. -/
theorem C4_witness :
    handleApiError (internalError "Gemini quota exceeded today") = quotaMsg :=
  (C4_error_classifier (internalError "Gemini quota exceeded today")).2.1 (by decide) (by decide)

/-- C10: in the `analyzeVideo` request pipeline the frame extraction and
the audio heuristic both complete before the single API call is issued,
and the media payload of that call is the one extracted still frame
(`image/jpeg`), never the uploaded video. -/
theorem C10_video_pipeline (v : FileM) (resp : String) :
    runEvents (analyzeVideoRequest v resp) =
      [VEvent.frameExtracted v.name, VEvent.audioExtracted v.name,
       VEvent.apiCall (videoPrompt (audioSummaryOf v)) (fileToGenerativePart (frameFileOf v))] ∧
    (fileToGenerativePart (frameFileOf v)).mimeType = "image/jpeg" ∧
    (isPrefixChars "video/".toList v.mimeType.toList = true →
      (fileToGenerativePart (frameFileOf v)).mimeType ≠ v.mimeType) := by
  refine ⟨rfl, rfl, fun h heq => ?_⟩
  have hv : v.mimeType = "image/jpeg" := heq.symm
  rw [hv] at h
  exact absurd h (by decide)

/-- Witness for `C10_video_pipeline` at a concrete MP4 file. -/
theorem C10_witness :
    (fileToGenerativePart (frameFileOf { name := "car.mp4", mimeType := "video/mp4", content := "vid" })).mimeType
      ≠ ({ name := "car.mp4", mimeType := "video/mp4", content := "vid" } : FileM).mimeType :=
  (C10_video_pipeline { name := "car.mp4", mimeType := "video/mp4", content := "vid" } "resp").2.2
    (by decide)

/-- C9: in every reachable App state at most one analyze call is
outstanding, and while one is outstanding the loading flag is set and both
the OBD submit button and the file-upload input are rendered disabled, so
no further analyze call can start until the `finally` block clears the
flag. -/
theorem C9_single_inflight (s : AppState) (h : ReachableApp s) :
    s.inFlight ≤ 1 ∧
    (0 < s.inFlight → s.isLoading = true ∧ obdSubmitDisabled s = true ∧
      fileUploadDisabled s = true) := by
  induction h with
  | refl => simp [initialAppState]
  | @tail b c hrt hstep ih =>
    cases hstep with
    | obdSubmitStart hg =>
      have hload : b.isLoading = false := hg
      have hzero : b.inFlight = 0 := by
        rcases Nat.eq_zero_or_pos b.inFlight with h0 | hpos
        · exact h0
        · have htrue := (ih.2 hpos).1
          rw [htrue] at hload
          exact Bool.noConfusion hload
      constructor
      · show b.inFlight + 1 ≤ 1
        omega
      · intro _
        exact ⟨rfl, rfl, rfl⟩
    | fileUploadStart hg =>
      have hload : b.isLoading = false := hg
      have hzero : b.inFlight = 0 := by
        rcases Nat.eq_zero_or_pos b.inFlight with h0 | hpos
        · exact h0
        · have htrue := (ih.2 hpos).1
          rw [htrue] at hload
          exact Bool.noConfusion hload
      constructor
      · show b.inFlight + 1 ≤ 1
        omega
      · intro _
        exact ⟨rfl, rfl, rfl⟩
    | settle hg =>
      have h1 := ih.1
      constructor
      · show b.inFlight - 1 ≤ 1
        omega
      · intro hpos
        exfalso
        have hpos2 : 0 < b.inFlight - 1 := hpos
        omega

/-- Witness for `C9_single_inflight` at the initial state. -/
theorem C9_witness :
    initialAppState.inFlight ≤ 1 ∧
    (0 < initialAppState.inFlight → initialAppState.isLoading = true ∧
      obdSubmitDisabled initialAppState = true ∧ fileUploadDisabled initialAppState = true) :=
  C9_single_inflight initialAppState Relation.ReflTransGen.refl

/-- A string without decimal digits has no digit runs. -/
theorem digitRunsAux_no_digit (fuel : Nat) (cs : List Char)
    (h : ∀ c ∈ cs, c.isDigit = false) : digitRunsAux fuel cs = [] := by
  induction fuel generalizing cs with
  | zero => cases cs <;> rfl
  | succ fuel ih =>
    cases cs with
    | nil => rfl
    | cons c rest =>
      have hc : c.isDigit = false := h c (List.mem_cons_self c rest)
      have hrest : ∀ d ∈ rest, d.isDigit = false := fun d hd => h d (List.mem_cons_of_mem c hd)
      simp [digitRunsAux, hc, ih rest hrest]

/-- Rounding to a double is exact below `2 ^ 53`. -/
theorem roundNatToDouble_small (n : Nat) (h : n < 2 ^ 53) :
    roundNatToDouble n = some n := by
  unfold roundNatToDouble
  rw [if_pos h]

/-- Below `2 ^ 53` the double pipeline computes the exact product with
83: neither `parseInt` nor the multiplication rounds. -/
theorem inrValue_exact (a : String) (h : digitsToNat a * 83 < 2 ^ 53) :
    inrValue a = some (digitsToNat a * 83) := by
  have ha : digitsToNat a < 2 ^ 53 := by omega
  unfold inrValue
  rw [roundNatToDouble_small (digitsToNat a) ha]
  exact roundNatToDouble_small _ h

set_option maxRecDepth 8000 in
/-- C8, refuting instance for the exact-value part: on a 15-digit first
run the double product rounds away from the exact integer, so the output
is not `round(first * 83)` — the program computes `…920` where the
exact product ends in `…917`. -/
theorem C8_counterexample :
    digitRuns "999999999999999 1 2" = ["999999999999999", "1", "2"] ∧
    convertUSDtoINR "999999999999999 1 2" ≠
      "₹" ++ enIN (digitsToNat "999999999999999" * 83) ∧
    convertUSDtoINR "999999999999999 1 2" = "₹82,99,99,99,99,99,99,920" ∧
    digitsToNat "999999999999999" * 83 = 82999999999999917 := by
  decide

/-- C8 (amended): `convertUSDtoINR` is total — with no digit anywhere it
returns the `Price unavailable` literal, and with three or more digit
runs it ignores all but the first and returns the single value
`Math.round(parseInt(first) * 83)` computed in IEEE-754 double
arithmetic, not a range; that value equals the exact `round(first * 83)`
whenever the product is below `2 ^ 53` (so for every run of at most 14
digits). -/
theorem C8_edge_defaults :
    (∀ s : String, (∀ c ∈ s.toList, c.isDigit = false) →
      convertUSDtoINR s = "Price unavailable") ∧
    (∀ (s : String) (a b c : String) (rest : List String),
      digitRuns s = a :: b :: c :: rest →
      convertUSDtoINR s = "₹" ++ enINOpt (inrValue a)) ∧
    (∀ (s : String) (a b c : String) (rest : List String),
      digitRuns s = a :: b :: c :: rest → digitsToNat a * 83 < 2 ^ 53 →
      convertUSDtoINR s = "₹" ++ enIN (digitsToNat a * 83)) := by
  refine ⟨?_, ?_, ?_⟩
  · intro s h
    have hruns : digitRuns s = [] := digitRunsAux_no_digit _ _ h
    simp [convertUSDtoINR, hruns]
  · intro s a b c rest h
    simp [convertUSDtoINR, h]
  · intro s a b c rest h hsmall
    simp [convertUSDtoINR, h, inrValue_exact a hsmall, enINOpt]

/-- Witness for `C8_edge_defaults` on a digit-free string and on a
three-run string with a small first run. -/
theorem C8_witness :
    convertUSDtoINR "labor costs extra" = "Price unavailable" ∧
    convertUSDtoINR "$100.50 plus $20" = "₹" ++ enIN (digitsToNat "100" * 83) :=
  ⟨C8_edge_defaults.1 "labor costs extra" (by decide),
   C8_edge_defaults.2.2 "$100.50 plus $20" "100" "50" "20" [] (by rfl) (by decide)⟩

/-- Rebuilding a string from its characters is the identity. -/
theorem mk_toList (s : String) : String.mk s.toList = s := by
  cases s
  rfl

/-- One-step unfolding of `upToLastClose`. -/
theorem upToLastClose_cons (c : Char) (rest : List Char) :
    upToLastClose (c :: rest) =
      (match upToLastClose rest with
       | some tail => some (c :: tail)
       | none => if c = rbrace then some [c] else none) := rfl

/-- Without a closing brace there is no greedy tail. -/
theorem upToLastClose_none (ys : List Char) (h : rbrace ∉ ys) :
    upToLastClose ys = none := by
  induction ys with
  | nil => rfl
  | cons c rest ih =>
    have hc : c ≠ rbrace := fun hcc => h (hcc ▸ List.mem_cons_self c rest)
    have hr : rbrace ∉ rest := fun hrr => h (List.mem_cons_of_mem c hrr)
    simp [upToLastClose, ih hr, hc]

/-- If `xs` ends with the closing brace and `ys` contains none, the
greedy tail of `xs ++ ys` is exactly `xs`. -/
theorem upToLastClose_append (xs ys : List Char) (hx : xs.getLast? = some rbrace)
    (hy : rbrace ∉ ys) : upToLastClose (xs ++ ys) = some xs := by
  induction xs with
  | nil => simp at hx
  | cons a xs ih =>
    cases xs with
    | nil =>
      have ha : a = rbrace := by simpa using hx
      simp [upToLastClose, upToLastClose_none ys hy, ha]
    | cons b xs2 =>
      have hx2 : (b :: xs2).getLast? = some rbrace := by
        rwa [List.getLast?_cons_cons] at hx
      have hih := ih hx2
      simp only [List.cons_append] at hih ⊢
      rw [upToLastClose_cons, hih]

/-- The regex match skips a brace-free prefix and starts at the first
opening brace. -/
theorem braceFind_append (p rest : List Char) (hp : lbrace ∉ p) (tail : List Char)
    (h : upToLastClose rest = some tail) :
    braceFind (p ++ lbrace :: rest) = some (lbrace :: tail) := by
  induction p with
  | nil => simp [braceFind, h]
  | cons c p ih =>
    have hc : c ≠ lbrace := fun hcc => hp (hcc ▸ List.mem_cons_self c p)
    have hp2 : lbrace ∉ p := fun hh => hp (List.mem_cons_of_mem c hh)
    simp [braceFind, hc, ih hp2]

/-- Decomposition of the greedy regex match: for a text
`prefix ++ m ++ suffix` where the prefix has no opening brace, `m` runs
from an opening to a closing brace and the suffix has no closing brace,
the match is exactly `m`. -/
theorem braceMatch_decompose (p m s : String) (hp : lbrace ∉ p.toList)
    (hm1 : m.toList.head? = some lbrace) (hm2 : m.toList.getLast? = some rbrace)
    (hs : rbrace ∉ s.toList) :
    braceMatch (p ++ m ++ s) = some m := by
  obtain ⟨mt, hmt⟩ : ∃ mt, m.toList = lbrace :: mt := by
    cases hml : m.toList with
    | nil => rw [hml] at hm1; exact Option.noConfusion hm1
    | cons a t =>
      rw [hml] at hm1
      simp at hm1
      exact ⟨t, by rw [hm1]⟩
  have hmt2 : mt.getLast? = some rbrace := by
    rw [hmt] at hm2
    cases mtn : mt with
    | nil =>
      rw [mtn] at hm2
      simp at hm2
      exact absurd hm2 (by decide)
    | cons b t2 =>
      rw [mtn] at hm2
      rwa [List.getLast?_cons_cons] at hm2
  have htl : (p ++ m ++ s).toList = p.toList ++ (lbrace :: (mt ++ s.toList)) := by
    show (p ++ m ++ s).data = p.data ++ (lbrace :: (mt ++ s.data))
    rw [String.data_append, String.data_append]
    show p.data ++ m.toList ++ s.data = _
    rw [hmt]
    simp [List.cons_append, List.append_assoc]
  unfold braceMatch
  show (braceFind (p ++ m ++ s).toList).map String.mk = some m
  rw [htl, braceFind_append p.toList (mt ++ s.toList) hp (mt)
    (upToLastClose_append mt s.toList hmt2 hs)]
  show some (String.mk (lbrace :: mt)) = some m
  rw [← hmt, mk_toList]

/-- C1 (amended): `extractAndParseJSON` first tries a direct parse; when
that fails it retries on the greedy regex match — the span from the first
opening brace to the LAST closing brace — and recovers an embedded object
exactly when that span is valid JSON (in particular whenever the
brace-delimited object is followed by no further closing brace); it
returns a parse error precisely when both attempts fail. -/
theorem C1_fallback_behavior :
    (∀ t v, jsonParse t = some v → extractAndParseJSON t = Except.ok v) ∧
    (∀ p m s v, lbrace ∉ p.toList → m.toList.head? = some lbrace →
      m.toList.getLast? = some rbrace → rbrace ∉ s.toList →
      jsonParse (p ++ m ++ s) = none → jsonParse m = some v →
      extractAndParseJSON (p ++ m ++ s) = Except.ok v) ∧
    (∀ t, (∃ e, extractAndParseJSON t = Except.error e) ↔
      (jsonParse t = none ∧ ∀ mm, braceMatch t = some mm → jsonParse mm = none)) := by
  refine ⟨?_, ?_, ?_⟩
  · intro t v h
    simp [extractAndParseJSON, h]
  · intro p m s v hp hm1 hm2 hs hfail hok
    simp [extractAndParseJSON, hfail, braceMatch_decompose p m s hp hm1 hm2 hs, hok]
  · intro t
    cases h1 : jsonParse t with
    | some v => simp [extractAndParseJSON, h1]
    | none =>
      cases h2 : braceMatch t with
      | none => simp [extractAndParseJSON, h1, h2]
      | some mm =>
        cases h3 : jsonParse mm with
        | some v => simp [extractAndParseJSON, h1, h2, h3]
        | none => simp [extractAndParseJSON, h1, h2, h3]

/-- Witness for `C1_fallback_behavior` on a typical chatty response
wrapping one JSON object. -/
theorem C1_witness :
    extractAndParseJSON ("Sure, here is the diagnosis: " ++ "\x7b\"a\":1\x7d" ++ "!") =
      Except.ok (Json.obj [("a", Json.num "1")]) :=
  C1_fallback_behavior.2.1 "Sure, here is the diagnosis: " "\x7b\"a\":1\x7d" "!"
    (Json.obj [("a", Json.num "1")]) (by decide) (by decide) (by decide) (by decide)
    (by rfl) (by rfl)

/-- When the parsed object fails the four-field truthiness check, the
normalizer rejects with the validation error. -/
theorem processResponse_invalid (mk : List (String × Json) → Option Json) (text : String)
    (fs : List (String × Json))
    (hparse : extractAndParseJSON text = Except.ok (Json.obj fs))
    (hcond : (!(fieldTruthy fs "problem") || !(fieldTruthy fs "solution")
        || !(fieldTruthy fs "severity") || !(fieldTruthy fs "estimatedCost")) = true) :
    processResponse mk text = Except.error invalidFieldsMsg := by
  unfold processResponse
  rw [hparse]
  simp [hcond]

/-- The validation error passes through `handleApiError` unchanged: its
message is non-empty and matches neither keyed check. -/
theorem analyzeWith_invalid (mk : List (String × Json) → Option Json) (text : String)
    (hpr : processResponse mk text = Except.error invalidFieldsMsg) :
    analyzeWith mk (Except.ok text) = Except.error invalidFieldsMsg := by
  show (match processResponse mk text with
        | Except.error m => Except.error (handleApiError (internalError m))
        | Except.ok r => Except.ok r) = Except.error invalidFieldsMsg
  rw [hpr]
  rfl

/-- C3: a response whose extracted object lacks any of the four mandatory
fields is rejected by all three analyzers with the validation error,
instead of producing a result. -/
theorem C3_missing_field_rejected (text : String) (fs : List (String × Json))
    (hparse : extractAndParseJSON text = Except.ok (Json.obj fs))
    (hmiss : jsLookup fs "problem" = none ∨ jsLookup fs "solution" = none ∨
             jsLookup fs "severity" = none ∨ jsLookup fs "estimatedCost" = none) :
    analyzeOBDCode (Except.ok text) =
      Except.error "Invalid response format: missing required fields" ∧
    analyzeImage (Except.ok text) =
      Except.error "Invalid response format: missing required fields" ∧
    analyzeVideo (Except.ok text) =
      Except.error "Invalid response format: missing required fields" := by
  have hcond : (!(fieldTruthy fs "problem") || !(fieldTruthy fs "solution")
      || !(fieldTruthy fs "severity") || !(fieldTruthy fs "estimatedCost")) = true := by
    rcases hmiss with h | h | h | h <;> simp [fieldTruthy, h]
  exact ⟨analyzeWith_invalid obdNotes text (processResponse_invalid obdNotes text fs hparse hcond),
         analyzeWith_invalid imageNotes text (processResponse_invalid imageNotes text fs hparse hcond),
         analyzeWith_invalid videoNotes text (processResponse_invalid videoNotes text fs hparse hcond)⟩

/-- Witness for `C3_missing_field_rejected`: an object with only
`problem`. -/
theorem C3_witness :
    analyzeOBDCode (Except.ok "\x7b\"problem\":\"p\"\x7d") =
      Except.error "Invalid response format: missing required fields" ∧
    analyzeImage (Except.ok "\x7b\"problem\":\"p\"\x7d") =
      Except.error "Invalid response format: missing required fields" ∧
    analyzeVideo (Except.ok "\x7b\"problem\":\"p\"\x7d") =
      Except.error "Invalid response format: missing required fields" :=
  C3_missing_field_rejected "\x7b\"problem\":\"p\"\x7d" [("problem", Json.str "p")]
    (by rfl) (Or.inr (Or.inl (by rfl)))

/-- C7: a mandatory field that is present but falsy — the empty string,
`false`, `0` or `null` — is treated exactly like an absent field: the
truthiness check rejects the response with the same validation error. -/
theorem C7_falsy_field_rejected (text : String) (fs : List (String × Json))
    (hparse : extractAndParseJSON text = Except.ok (Json.obj fs))
    (hfalsy : (∃ v, jsLookup fs "problem" = some v ∧ jsFalsy v = true) ∨
              (∃ v, jsLookup fs "solution" = some v ∧ jsFalsy v = true) ∨
              (∃ v, jsLookup fs "severity" = some v ∧ jsFalsy v = true) ∨
              (∃ v, jsLookup fs "estimatedCost" = some v ∧ jsFalsy v = true)) :
    analyzeOBDCode (Except.ok text) =
      Except.error "Invalid response format: missing required fields" ∧
    analyzeImage (Except.ok text) =
      Except.error "Invalid response format: missing required fields" ∧
    analyzeVideo (Except.ok text) =
      Except.error "Invalid response format: missing required fields" := by
  have hcond : (!(fieldTruthy fs "problem") || !(fieldTruthy fs "solution")
      || !(fieldTruthy fs "severity") || !(fieldTruthy fs "estimatedCost")) = true := by
    rcases hfalsy with ⟨v, hv, hf⟩ | ⟨v, hv, hf⟩ | ⟨v, hv, hf⟩ | ⟨v, hv, hf⟩ <;>
      simp [fieldTruthy, hv, hf]
  exact ⟨analyzeWith_invalid obdNotes text (processResponse_invalid obdNotes text fs hparse hcond),
         analyzeWith_invalid imageNotes text (processResponse_invalid imageNotes text fs hparse hcond),
         analyzeWith_invalid videoNotes text (processResponse_invalid videoNotes text fs hparse hcond)⟩

/-- Witness for `C7_falsy_field_rejected`: `problem` present but empty. -/
theorem C7_witness :
    analyzeOBDCode (Except.ok "\x7b\"problem\":\"\",\"solution\":\"s\",\"severity\":\"low\",\"estimatedCost\":\"$5\"\x7d") =
      Except.error "Invalid response format: missing required fields" ∧
    analyzeImage (Except.ok "\x7b\"problem\":\"\",\"solution\":\"s\",\"severity\":\"low\",\"estimatedCost\":\"$5\"\x7d") =
      Except.error "Invalid response format: missing required fields" ∧
    analyzeVideo (Except.ok "\x7b\"problem\":\"\",\"solution\":\"s\",\"severity\":\"low\",\"estimatedCost\":\"$5\"\x7d") =
      Except.error "Invalid response format: missing required fields" :=
  C7_falsy_field_rejected
    "\x7b\"problem\":\"\",\"solution\":\"s\",\"severity\":\"low\",\"estimatedCost\":\"$5\"\x7d"
    [("problem", Json.str ""), ("solution", Json.str "s"), ("severity", Json.str "low"),
     ("estimatedCost", Json.str "$5")]
    (by rfl) (Or.inl ⟨Json.str "", by rfl, by rfl⟩)

/-- Inversion of the successful normalization path: an `ok` result can
only come from a parsed object all four of whose mandatory fields were
truthy; its severity is the lower-cased severity string, its `usd` field
is the `estimatedCost` string exactly as parsed, and its `inr` field is
its conversion. -/
theorem processResponse_ok_inv (mk : List (String × Json) → Option Json) (text : String)
    (r : DiagnosisResult) (h : processResponse mk text = Except.ok r) :
    ∃ fs, extractAndParseJSON text = Except.ok (Json.obj fs) ∧
      fieldTruthy fs "problem" = true ∧ fieldTruthy fs "solution" = true ∧
      fieldTruthy fs "severity" = true ∧ fieldTruthy fs "estimatedCost" = true ∧
      (∃ sv, jsLookup fs "severity" = some (Json.str sv) ∧ r.severity = jsToLower sv) ∧
      jsLookup fs "estimatedCost" = some (Json.str r.usd) ∧
      r.inr = convertUSDtoINR r.usd := by
  unfold processResponse at h
  split at h
  case _ => exact absurd h (by simp)
  case _ => exact absurd h (by simp)
  case _ fs heq =>
    split at h
    case _ hcond => exact absurd h (by simp)
    case _ hcond =>
      have hc : fieldTruthy fs "problem" = true ∧ fieldTruthy fs "solution" = true ∧
          fieldTruthy fs "severity" = true ∧ fieldTruthy fs "estimatedCost" = true := by
        have h4 := hcond
        simp at h4
        exact ⟨h4.1.1.1, h4.1.1.2, h4.1.2, h4.2⟩
      split at h
      case _ p sol sevv costv hp hsol hsev hcost =>
        split at h
        case _ => exact absurd h (by simp)
        case _ sev heq2 =>
          split at h
          case _ => exact absurd h (by simp)
          case _ cost heq3 =>
            obtain ⟨sv, hsv, hsev2⟩ : ∃ sv, sevv = Json.str sv ∧ sev = jsToLower sv := by
              cases sevv <;> simp [jsToLowerCase] at heq2
              exact ⟨_, rfl, heq2.symm⟩
            obtain ⟨cs, hcs⟩ : ∃ cs, costv = Json.str cs ∧ cost = cs := by
              cases costv <;> simp [asStringForMatch] at heq3
              exact ⟨_, rfl, heq3.symm⟩
            have hr : r = { problem := p, solution := sol, severity := sev, usd := cost,
                            inr := convertUSDtoINR cost, additionalNotes := mk fs } := by
              injection h with h2
              exact h2.symm
            refine ⟨fs, heq, hc.1, hc.2.1, hc.2.2.1, hc.2.2.2, ⟨sv, ?_, ?_⟩, ?_, ?_⟩
            · rw [hsev, hsv]
            · rw [hr]; exact hsev2
            · rw [hr]
              rw [hcost, hcs.1, hcs.2]
            · rw [hr]
      case _ h1 h2 h3 h4 => exact absurd h (by simp)
  case _ j hne1 hne2 heq => exact absurd h (by simp)

/-- An analyzer returns `ok` only via a successful response text and a
successful normalization of it. -/
theorem analyzeWith_ok_inv (mk : List (String × Json) → Option Json)
    (api : Except JsError String) (r : DiagnosisResult)
    (h : analyzeWith mk api = Except.ok r) :
    ∃ text, api = Except.ok text ∧ processResponse mk text = Except.ok r := by
  unfold analyzeWith at h
  split at h
  case _ e => exact absurd h (by simp)
  case _ text =>
    split at h
    case _ m heq => exact absurd h (by simp)
    case _ r2 heq =>
      injection h with h2
      exact ⟨text, rfl, by rw [heq, h2]⟩

/-- C5: no partial result — whenever any of the three analyzers returns a
result at all (each returns either one result or one error message, by
type), the single consumed API response parsed to an object whose four
mandatory fields all passed the truthiness validation. -/
theorem C5_validated_or_error (api : Except JsError String) (r : DiagnosisResult)
    (h : analyzeOBDCode api = Except.ok r ∨ analyzeImage api = Except.ok r ∨
         analyzeVideo api = Except.ok r) :
    ∃ text fs, api = Except.ok text ∧ extractAndParseJSON text = Except.ok (Json.obj fs) ∧
      fieldTruthy fs "problem" = true ∧ fieldTruthy fs "solution" = true ∧
      fieldTruthy fs "severity" = true ∧ fieldTruthy fs "estimatedCost" = true := by
  rcases h with h | h | h <;>
  · obtain ⟨text, hapi, hpr⟩ := analyzeWith_ok_inv _ _ _ h
    obtain ⟨fs, hfs, h1, h2, h3, h4, -, -, -⟩ := processResponse_ok_inv _ _ _ hpr
    exact ⟨text, fs, hapi, hfs, h1, h2, h3, h4⟩

/-- Witness for `C5_validated_or_error` on a fully valid response. -/
theorem C5_witness :
    ∃ text fs,
      (Except.ok "\x7b\"problem\":\"p\",\"solution\":\"s\",\"severity\":\"HIGH\",\"estimatedCost\":\"$100-$200\"\x7d" :
        Except JsError String) = Except.ok text ∧
      extractAndParseJSON text = Except.ok (Json.obj fs) ∧
      fieldTruthy fs "problem" = true ∧ fieldTruthy fs "solution" = true ∧
      fieldTruthy fs "severity" = true ∧ fieldTruthy fs "estimatedCost" = true :=
  C5_validated_or_error
    (Except.ok "\x7b\"problem\":\"p\",\"solution\":\"s\",\"severity\":\"HIGH\",\"estimatedCost\":\"$100-$200\"\x7d")
    { problem := Json.str "p", solution := Json.str "s", severity := "high",
      usd := "$100-$200", inr := "₹8,300-₹16,600", additionalNotes := none }
    (Or.inl (by rfl))

set_option maxRecDepth 8000 in
/-- C6, refuting instance for the exact-value part: at a 15-digit run the
product `999999999999999 * 83` is above `2 ^ 53`, the double multiply
rounds it from `…917` to `…920`, and the program's range differs from
the claimed exact `round(n * 83)` values. -/
theorem C6_counterexample :
    digitRuns "$999999999999999-$999999999999999" =
      ["999999999999999", "999999999999999"] ∧
    convertUSDtoINR "$999999999999999-$999999999999999" ≠
      "₹" ++ enIN (digitsToNat "999999999999999" * 83) ++
        "-₹" ++ enIN (digitsToNat "999999999999999" * 83) ∧
    convertUSDtoINR "$999999999999999-$999999999999999" =
      "₹82,99,99,99,99,99,99,920-₹82,99,99,99,99,99,99,920" := by
  decide

/-- C6 (amended): the cost estimate is a pair — `usd` is the API string
unchanged and `inr` is its conversion; `convertUSDtoINR` maps exactly two
digit runs to a rupee range and a single run to a single rupee value,
each value being `Math.round(parseInt(run) * 83)` in IEEE-754 double
arithmetic rendered in `en-IN` grouping; that value is the exact
`round(n * 83)` whenever the product is below `2 ^ 53` (all runs of at
most 14 digits, covering the documented `$100-$300`-style ranges). -/
theorem C6_cost_pair :
    (∀ u a b, digitRuns u = [a, b] →
      convertUSDtoINR u =
        "₹" ++ enINOpt (inrValue a) ++ "-₹" ++ enINOpt (inrValue b)) ∧
    (∀ u a, digitRuns u = [a] → convertUSDtoINR u = "₹" ++ enINOpt (inrValue a)) ∧
    (∀ a, digitsToNat a * 83 < 2 ^ 53 → inrValue a = some (digitsToNat a * 83)) ∧
    (∀ (api : Except JsError String) (r : DiagnosisResult),
      analyzeOBDCode api = Except.ok r ∨ analyzeImage api = Except.ok r ∨
        analyzeVideo api = Except.ok r →
      r.inr = convertUSDtoINR r.usd ∧
      ∃ text fs, api = Except.ok text ∧ extractAndParseJSON text = Except.ok (Json.obj fs) ∧
        jsLookup fs "estimatedCost" = some (Json.str r.usd)) := by
  refine ⟨?_, ?_, ?_, ?_⟩
  · intro u a b hruns
    simp [convertUSDtoINR, hruns]
  · intro u a hruns
    simp [convertUSDtoINR, hruns]
  · intro a hsmall
    exact inrValue_exact a hsmall
  · intro api r h
    rcases h with h | h | h <;>
    · obtain ⟨text, hapi, hpr⟩ := analyzeWith_ok_inv _ _ _ h
      obtain ⟨fs, hfs, -, -, -, -, -, hcost, hinr⟩ := processResponse_ok_inv _ _ _ hpr
      exact ⟨hinr, text, fs, hapi, hfs, hcost⟩

/-- Witness for `C6_cost_pair` on the documented example range, where the
double arithmetic is exact. -/
theorem C6_witness :
    convertUSDtoINR "$100-$200" =
      "₹" ++ enINOpt (inrValue "100") ++ "-₹" ++ enINOpt (inrValue "200") ∧
    inrValue "100" = some 8300 ∧ inrValue "200" = some 16600 :=
  ⟨C6_cost_pair.1 "$100-$200" "100" "200" (by rfl),
   (C6_cost_pair.2.2.1 "100" (by decide)).trans rfl,
   (C6_cost_pair.2.2.1 "200" (by decide)).trans rfl⟩
